import Mathlib

/-!
Shallow embedding of the tg9 terminal chat client core (src/main.rs and
src/screen.rs): the application state, the event and job types, and the
reducer / event loop, with usize arithmetic made explicit.  Messages,
dialogs and packed chats from the remote-service library are modelled by
their observable attributes (chat identifier, sequence number, text,
outgoing flag); chat identifiers stand in for `PackedChat` handles, which
the source compares with `==`.
-/

/-- Size of the usize integer type (64-bit target). -/
def USIZE_SIZE : Nat := 2 ^ 64

/-- Wrapping usize addition (release-mode Rust `+` on usize). -/
def usizeAdd (a b : Nat) : Nat := (a + b) % USIZE_SIZE

/-- Wrapping usize subtraction (release-mode Rust `-` on usize); in debug
mode an underflow panics instead of wrapping.  Used with `b = 1` only. -/
def usizeSub (a b : Nat) : Nat := (a + USIZE_SIZE - b) % USIZE_SIZE

/-- Model of `grammers_client::types::Message`: the chat it belongs to
(`message.chat()`, converted to a `PackedChat` for comparison), its
monotone sequence identifier, its text, and the `outgoing` flag. -/
structure Message where
  chatId : Nat
  seq : Nat
  text : String
  outgoing : Bool
deriving DecidableEq

/-- Model of `grammers_client::types::Dialog`: the chat it denotes
(`dialog.chat()`, packed to `dialog.chat().pack()`), its display name and
its optional `last_message` preview. -/
structure Dialog where
  chatId : Nat
  name : String
  lastMessage : Option Message
deriving DecidableEq

/-- Per-chat state (`struct ChatState` in src/main.rs): the packed chat
handle, the dialog, and the `VecDeque<Message>` cache, modelled as a list
whose end is the `push_back` end. -/
structure ChatState where
  chat : Nat
  dialog : Dialog
  messages : List Message
deriving DecidableEq

/-- Constructor `ChatState::new` (src/main.rs lines 25-32). -/
def ChatState.new (dialog : Dialog) : ChatState :=
  { chat := dialog.chatId, dialog := dialog, messages := [] }

/-- Application state (`struct App` in src/main.rs lines 35-40): the quit
flag, the `VecDeque<ChatState>` of chats, and the optional selected index.
There are no further fields: in particular no in-flight-job set, no
pagination cursor and no error indicator. -/
structure App where
  quit : Bool
  chat_states : List ChatState
  dialog_idx : Option Nat
deriving DecidableEq

/-- Constructor `App::new` (src/main.rs lines 43-49). -/
def App.new : App :=
  { quit := false, chat_states := [], dialog_idx := none }

/-- Jobs for the api worker (`enum ApiJob`, src/main.rs lines 113-119). -/
inductive ApiJob where
  | LoadMessages (chat : Nat)
  | LoadDialogs
deriving DecidableEq

/-- Key modifiers as distinguished by the source's key match. -/
inductive KeyModifiers where
  | NONE
  | CONTROL
  | OTHER
deriving DecidableEq

/-- Key codes as distinguished by the source's key match. -/
inductive KeyCode where
  | Char (c : Char)
  | Other
deriving DecidableEq

/-- A key press event (modifiers and code, as matched in src/main.rs). -/
structure KeyEvent where
  modifiers : KeyModifiers
  code : KeyCode
deriving DecidableEq

/-- Terminal events (`enum ScreenEvent`, src/screen.rs lines 20-33). -/
inductive ScreenEvent where
  | Init
  | Quit
  | Error
  | Closed
  | Tick
  | Render
  | FocusGained
  | FocusLost
  | Paste (s : String)
  | Key (e : KeyEvent)
  | Mouse
  | Resize (x y : Nat)
deriving DecidableEq

/-- Events from the api worker (`enum ApiEvent`, src/main.rs 173-190). -/
inductive ApiEvent where
  | MessageNew (m : Message)
  | MessageDeleted
  | MessageEdited (m : Message)
  | LoadedMessages (m : Message)
  | LoadedDialog (d : Dialog)
  | Error
deriving DecidableEq

/-- One event pulled by the `tokio::select!` in `run`: either a screen
event or an api event. -/
inductive Event where
  | screen (e : ScreenEvent)
  | api (e : ApiEvent)
deriving DecidableEq

/-- Live updates from the client (`grammers_client::Update`), as
distinguished by the api worker's match (src/main.rs lines 159-166). -/
inductive Update where
  | NewMessage (m : Message)
  | MessageDeleted
  | MessageEdited (m : Message)
  | Other
deriving DecidableEq

/-- The api worker's translation of a live update into an `ApiEvent`
(src/main.rs lines 159-166): a new incoming (not outgoing) message is
forwarded as `MessageNew`; deletions, edits, outgoing messages and all
other updates are discarded. -/
def forwardUpdate : Update → Option ApiEvent
  | .NewMessage m => if m.outgoing then none else some (.MessageNew m)
  | .MessageDeleted => none
  | .MessageEdited _ => none
  | .Other => none

/-- The `ApiEvent::LoadedMessages` handler's loop (src/main.rs 256-263):
scan the chats in order and append the message at the back of the first
chat whose packed handle equals the message's chat, then break; if no
chat matches, nothing changes. -/
def pushMessage : List ChatState → Message → List ChatState
  | [], _ => []
  | c :: rest, m =>
    if c.chat = m.chatId then
      { c with messages := c.messages ++ [m] } :: rest
    else
      c :: pushMessage rest m

/-- Result of one pass through the loop body's event handling: the new
app state, the jobs sent on the job channel during the handling, and
whether the handler executed `continue` (which skips the draw at the end
of the loop body).  `none` models a panic. -/
structure StepResult where
  app : App
  jobs : List ApiJob
  continued : Bool
deriving DecidableEq

/-- Index computed by the `j` (down) handler, src/main.rs line 230:
`cmp::min(app.dialog_idx.map(|i| i+1).unwrap_or(0), app.chat_states.len()-1)`,
with the usize increment wrapping. -/
def jIdx (app : App) : Nat :=
  min ((app.dialog_idx.map (fun i => usizeAdd i 1)).getD 0)
    (app.chat_states.length - 1)

/-- Index computed by the `k` (up) handler, src/main.rs line 237:
`cmp::max(app.dialog_idx.map(|i| i-1).unwrap_or(0), 0)`, with the usize
decrement wrapping (in debug mode it panics at 0 instead). -/
def kIdx (app : App) : Nat :=
  max ((app.dialog_idx.map (fun i => usizeSub i 1)).getD 0) 0

/-- Shared tail of the `j`/`k` handlers (src/main.rs lines 231-233 and
238-240): set the selection to `idx`, read `app.chat_states[idx]`
(out of bounds means a panic, modelled as `none`), and send one
`LoadMessages` job for that chat's packed handle. -/
def navigate (app : App) (idx : Nat) : Option StepResult :=
  match app.chat_states[idx]? with
  | none => none
  | some c =>
    some ⟨{ app with dialog_idx := some idx }, [.LoadMessages c.chat], false⟩

/-- One state transition of the event loop in `run` (src/main.rs lines
216-274): the handling of a single received event.  Faithful points:
`j`/`k` on an empty chat list `continue` (skipping the draw);
otherwise they select `jIdx`/`kIdx` and send one job (`navigate`);
`LoadedDialog` unconditionally appends; `LoadedMessages` uses
`pushMessage`; `MessageNew`, `MessageDeleted`, `MessageEdited` and
`Error` do nothing. -/
def step (app : App) (e : Event) : Option StepResult :=
  match e with
  | .screen se =>
    match se with
    | .Tick => some ⟨app, [], false⟩
    | .Render => some ⟨app, [], false⟩
    | .Key ke =>
      if (ke.modifiers = .NONE ∧ ke.code = .Char 'q') ∨
         (ke.modifiers = .CONTROL ∧ ke.code = .Char 'c') then
        some ⟨{ app with quit := true }, [], false⟩
      else if ke.modifiers = .NONE ∧ ke.code = .Char 'j' then
        if app.chat_states.isEmpty then some ⟨app, [], true⟩
        else navigate app (jIdx app)
      else if ke.modifiers = .NONE ∧ ke.code = .Char 'k' then
        if app.chat_states.isEmpty then some ⟨app, [], true⟩
        else navigate app (kIdx app)
      else
        some ⟨app, [], false⟩
    | .Quit => some ⟨{ app with quit := true }, [], false⟩
    | _ => some ⟨app, [], false⟩
  | .api ae =>
    match ae with
    | .LoadedDialog d =>
      some ⟨{ app with chat_states := app.chat_states ++ [ChatState.new d] },
        [], false⟩
    | .LoadedMessages m =>
      some ⟨{ app with chat_states := pushMessage app.chat_states m }, [], false⟩
    | .MessageNew _ => some ⟨app, [], false⟩
    | .MessageDeleted => some ⟨app, [], false⟩
    | .MessageEdited _ => some ⟨app, [], false⟩
    | .Error => some ⟨app, [], false⟩

/-- Iterated event loop: process a list of events in order, collecting
all jobs sent on the job channel; `none` models a panic at some step. -/
def run : App → List Event → Option (App × List ApiJob)
  | app, [] => some (app, [])
  | app, e :: es =>
    match step app e with
    | none => none
    | some r =>
      match run r.app es with
      | none => none
      | some (a2, js) => some (a2, r.jobs ++ js)

/-- Whether the loop body reaches the `screen.terminal.draw` call at
src/main.rs line 276 for this event: it does on every successfully
handled event, unless the handler executed `continue` (a panic never
reaches it). -/
def drawsThisIter : Option StepResult → Bool
  | none => false
  | some r => !r.continued

/-- Whether an event is a `j`/`k` navigation key press with no modifiers
arriving while the chat list is empty: exactly the cases in which the
key handler executes `continue`. -/
def navKeyOnEmpty (app : App) (e : Event) : Bool :=
  app.chat_states.isEmpty &&
    match e with
    | .screen (.Key ke) =>
      decide ((ke.modifiers = .NONE ∧ ke.code = .Char 'j') ∨
        (ke.modifiers = .NONE ∧ ke.code = .Char 'k'))
    | _ => false

/-- Message cache of the first chat with the given identifier (empty if
no chat matches). -/
def cacheOf (app : App) (chatId : Nat) : List Message :=
  ((app.chat_states.find? (fun c => c.chat == chatId)).map
    (fun c => c.messages)).getD []

/-- Sample dialog with identifier 1. -/
def alice : Dialog := ⟨1, "Alice", none⟩

/-- Sample dialog with identifier 2. -/
def bob : Dialog := ⟨2, "Bob", none⟩

/-- The `j` (navigate down) key press event. -/
def jKey : Event := .screen (.Key ⟨.NONE, .Char 'j'⟩)

/-- The `k` (navigate up) key press event. -/
def kKey : Event := .screen (.Key ⟨.NONE, .Char 'k'⟩)

/-- Sample message with sequence number 1 in chat 1. -/
def msgA : Message := ⟨1, 1, "a", false⟩

/-- Sample message with sequence number 2 in chat 1. -/
def msgB : Message := ⟨1, 2, "b", false⟩

/-- Default chat state, used only as the default of `List.getD` in
statements about an index that is proved to be in bounds. -/
def dummyChat : ChatState := ⟨0, ⟨0, "", none⟩, []⟩

/-! ## Theorems -/

/-- C10: processing a `Tick` event or a `Render` event mutates no field of
the application state: the handlers at src/main.rs lines 220-221 are
empty, so the state is returned unchanged and no job is sent. -/
theorem tick_render_no_mutation (app : App) :
    step app (.screen .Tick) = some ⟨app, [], false⟩ ∧
    step app (.screen .Render) = some ⟨app, [], false⟩ :=
  ⟨rfl, rfl⟩

/-- C8, scenario A: from the empty state, after discovering Alice (id 1)
and Bob (id 2), one `j` (down) press selects index 0 — the conversation
with id 1 — and the whole run submits exactly one `LoadMessages` job,
for chat 1. -/
theorem scenarioA_one_lazy_load :
    run App.new [.api (.LoadedDialog alice), .api (.LoadedDialog bob), jKey] =
      some (⟨false, [ChatState.new alice, ChatState.new bob], some 0⟩,
        [.LoadMessages 1]) ∧
    (ChatState.new alice).chat = 1 :=
  ⟨rfl, rfl⟩

/-- C3 (counterexample): `LoadedDialog` appends unconditionally, so
feeding the same discovery event twice creates two entries for chat 1
(src/main.rs lines 252-255 have no presence check). -/
theorem duplicate_discovery_cex :
    run App.new [.api (.LoadedDialog alice), .api (.LoadedDialog alice)] =
      some (⟨false, [ChatState.new alice, ChatState.new alice], none⟩, []) ∧
    ([ChatState.new alice, ChatState.new alice].countP
      (fun c => c.chat == 1)) = 2 :=
  ⟨rfl, rfl⟩

/-- C3 (amended): processing `ConversationDiscovered` always appends a
new entry, with no presence check: the number of entries for the
discovered identifier always grows by one, so the handling is not
idempotent. -/
theorem discovery_always_appends (app : App) (d : Dialog) :
    step app (.api (.LoadedDialog d)) =
      some ⟨{ app with chat_states := app.chat_states ++ [ChatState.new d] },
        [], false⟩ ∧
    (app.chat_states ++ [ChatState.new d]).countP
        (fun c => c.chat == d.chatId) =
      app.chat_states.countP (fun c => c.chat == d.chatId) + 1 := by
  refine ⟨rfl, ?_⟩
  simp [List.countP_append, List.countP_cons, ChatState.new]

/-- C4 (counterexample): the api worker forwards an incoming live message
as `MessageNew`, but the reducer's `MessageNew` arm (src/main.rs line
264) does nothing: from the empty state the message is dropped and no
placeholder conversation is synthesized. -/
theorem live_message_dropped_cex :
    forwardUpdate (.NewMessage ⟨7, 1, "hello", false⟩) =
      some (.MessageNew ⟨7, 1, "hello", false⟩) ∧
    step App.new (.api (.MessageNew ⟨7, 1, "hello", false⟩)) =
      some ⟨App.new, [], false⟩ ∧
    App.new.chat_states = [] :=
  ⟨rfl, rfl, rfl⟩

/-- C4 (amended): `MessageNew` events are ignored entirely: for every
state and message the state is returned unchanged — no append, no
preview update, no synthesized placeholder — so every live message is
silently dropped. -/
theorem live_message_ignored (app : App) (m : Message) :
    step app (.api (.MessageNew m)) = some ⟨app, [], false⟩ :=
  rfl

/-- C5 (counterexample): with a chat holding one cached message, the
`Error` arm (src/main.rs line 270) does nothing: the post-state equals
the pre-state exactly, so no error indicator is attached anywhere (and
there is no in-flight flag in `App` to clear). -/
theorem job_failed_no_indicator_cex :
    step ⟨false, [⟨1, alice, [msgA]⟩], some 0⟩ (.api .Error) =
      some ⟨⟨false, [⟨1, alice, [msgA]⟩], some 0⟩, [], false⟩ :=
  rfl

/-- C5 (amended): processing an api `Error` event leaves the whole
application state unchanged; `App` carries no in-flight flag and no
error indicator, and in particular every message cache is unchanged. -/
theorem error_event_unchanged (app : App) :
    step app (.api .Error) = some ⟨app, [], false⟩ :=
  rfl

/-- C1 (counterexample): with one discovered conversation, pressing `j`
twice with no intervening job completion emits two `LoadMessages` jobs
for chat 1: the second down-press while a load is in flight submits one
more job, not zero (there is no in-flight tracking in `App`). -/
theorem duplicate_load_job_cex :
    run App.new [.api (.LoadedDialog alice), jKey, jKey] =
      some (⟨false, [ChatState.new alice], some 0⟩,
        [.LoadMessages 1, .LoadMessages 1]) :=
  rfl

/-- C2 (counterexample): with conversation 1 present, injecting the
page item with sequence 2 and then the one with sequence 1 leaves the
cache in arrival order `[msgB, msgA]`, not in sequence order
`[msgA, msgB]` (src/main.rs line 259 is a plain `push_back`). -/
theorem cache_arrival_order_cex :
    (run ⟨false, [ChatState.new alice], none⟩
        [.api (.LoadedMessages msgB), .api (.LoadedMessages msgA)]).map
      (fun p => cacheOf p.1 1) = some [msgB, msgA] ∧
    [msgB, msgA] ≠ [msgA, msgB] ∧ msgB.seq = 2 ∧ msgA.seq = 1 :=
  ⟨rfl, by decide, rfl, rfl⟩

/-- C6 (counterexample): a `Tick` event — which is not a `Render`
event — still reaches the draw call at src/main.rs line 276: the draw
is not confined to the render branch. -/
theorem draw_on_tick_cex :
    drawsThisIter (step App.new (.screen .Tick)) = true ∧
    Event.screen .Tick ≠ .screen .Render :=
  ⟨rfl, by decide⟩

/-- Unfolding of `step` on a `LoadedMessages` event. -/
theorem step_loadedMessages (app : App) (m : Message) :
    step app (.api (.LoadedMessages m)) =
      some ⟨{ app with chat_states := pushMessage app.chat_states m }, [],
        false⟩ :=
  rfl

/-- If no chat matches the message's chat, `pushMessage` changes
nothing. -/
theorem pushMessage_no_match (l : List ChatState) (m : Message)
    (h : ∀ c ∈ l, c.chat ≠ m.chatId) : pushMessage l m = l := by
  induction l with
  | nil => rfl
  | cons a l ih =>
    simp only [pushMessage]
    rw [if_neg (h a (List.mem_cons_self a l))]
    rw [ih (fun c hc => h c (List.mem_cons_of_mem a hc))]

/-- The first matching chat receives the message at the back of its
cache; chats before and after it are untouched. -/
theorem pushMessage_first (pre : List ChatState) (c : ChatState)
    (post : List ChatState) (m : Message)
    (hpre : ∀ c2 ∈ pre, c2.chat ≠ m.chatId) (hc : c.chat = m.chatId) :
    pushMessage (pre ++ c :: post) m =
      pre ++ { c with messages := c.messages ++ [m] } :: post := by
  induction pre with
  | nil => simp only [List.nil_append, pushMessage, if_pos hc]
  | cons a pre ih =>
    simp only [List.cons_append, pushMessage, List.append_eq,
      if_neg (hpre a (List.mem_cons_self a pre))]
    rw [ih (fun c2 h2 => hpre c2 (List.mem_cons_of_mem a h2))]

/-- C9: a `MessagePageItem` for an unknown conversation identifier leaves
the entire application state unchanged (the event is dropped without
failing); for a present identifier, the message is appended to the cache
of the first chat carrying it, and every other chat is unchanged. -/
theorem page_item_drop_or_insert (app : App) (m : Message) :
    ((∀ c ∈ app.chat_states, c.chat ≠ m.chatId) →
      step app (.api (.LoadedMessages m)) = some ⟨app, [], false⟩) ∧
    (∀ pre c post, app.chat_states = pre ++ c :: post →
      (∀ c2 ∈ pre, c2.chat ≠ m.chatId) → c.chat = m.chatId →
      step app (.api (.LoadedMessages m)) =
        some ⟨{ app with
            chat_states := pre ++ { c with
              messages := c.messages ++ [m] } :: post }, [], false⟩) := by
  constructor
  · intro h
    rw [step_loadedMessages, pushMessage_no_match app.chat_states m h]
  · intro pre c post hsplit hpre hc
    rw [step_loadedMessages, hsplit, pushMessage_first pre c post m hpre hc]

/-- Witness for `page_item_drop_or_insert`: drop on a state holding only
chat 2, insert on a state holding chat 1. -/
theorem page_item_drop_or_insert_w :
    step ⟨false, [ChatState.new bob], none⟩ (.api (.LoadedMessages msgA)) =
      some ⟨⟨false, [ChatState.new bob], none⟩, [], false⟩ ∧
    step ⟨false, [ChatState.new alice], none⟩ (.api (.LoadedMessages msgA)) =
      some ⟨⟨false, [⟨1, alice, [msgA]⟩], none⟩, [], false⟩ :=
  ⟨(page_item_drop_or_insert ⟨false, [ChatState.new bob], none⟩ msgA).1
      (by decide),
    (page_item_drop_or_insert ⟨false, [ChatState.new alice], none⟩ msgA).2
      [] (ChatState.new alice) [] rfl (by simp) rfl⟩

/-- C2 (amended): page items are merged in arrival order: running any
sequence of `LoadedMessages` events addressed to the first chat appends
the messages at the back of its cache in exactly the order received,
with no reordering by sequence number and no duplicate rejection. -/
theorem cache_appends_in_arrival_order (q : Bool) (c : ChatState)
    (rest : List ChatState) (di : Option Nat) (ms : List Message)
    (hall : ∀ m ∈ ms, m.chatId = c.chat) :
    run ⟨q, c :: rest, di⟩ (ms.map (fun m => .api (.LoadedMessages m))) =
      some (⟨q, { c with messages := c.messages ++ ms } :: rest, di⟩, []) := by
  revert hall
  induction ms generalizing c with
  | nil =>
    intro _
    simp [run]
  | cons m ms ih =>
    intro hall
    have hm : c.chat = m.chatId := (hall m (List.mem_cons_self m ms)).symm
    simp only [List.map_cons, run, step_loadedMessages]
    rw [show pushMessage (c :: rest) m =
      { c with messages := c.messages ++ [m] } :: rest from by
        simp only [pushMessage, if_pos hm]]
    rw [ih { c with messages := c.messages ++ [m] }
      (fun m2 h2 => hall m2 (List.mem_cons_of_mem m h2))]
    simp [List.append_assoc]

/-- Witness for `cache_appends_in_arrival_order` at scenario C's inputs:
the resulting cache is `[msgB, msgA]`, in arrival order. -/
theorem cache_appends_in_arrival_order_w :
    run ⟨false, [ChatState.new alice], none⟩
        [.api (.LoadedMessages msgB), .api (.LoadedMessages msgA)] =
      some (⟨false, [⟨1, alice, [msgB, msgA]⟩], none⟩, []) :=
  cache_appends_in_arrival_order false (ChatState.new alice) [] none
    [msgB, msgA] (by decide)

/-- C1 (amended): pressing `j` (down) with a nonempty conversation list
always submits exactly one `LoadMessages` job for the newly selected
conversation, unconditionally — nothing in the state records an
in-flight job, so no request is ever rejected or de-duplicated. -/
theorem down_always_submits_job (app : App) (h : app.chat_states ≠ []) :
    step app jKey =
      some ⟨{ app with dialog_idx := some (jIdx app) },
        [.LoadMessages ((app.chat_states.getD (jIdx app) dummyChat).chat)],
        false⟩ := by
  have hidx : jIdx app < app.chat_states.length := by
    have hlen : 0 < app.chat_states.length := List.length_pos.mpr h
    have h2 := min_le_right
      ((app.dialog_idx.map (fun i => usizeAdd i 1)).getD 0)
      (app.chat_states.length - 1)
    simp only [jIdx]
    omega
  have hget : app.chat_states[jIdx app]? =
      some (app.chat_states.getD (jIdx app) dummyChat) := by
    rw [List.getD_eq_getElem?_getD, List.getElem?_eq_getElem hidx]
    rfl
  have hne : app.chat_states.isEmpty = false := by
    cases hcs : app.chat_states with
    | nil => exact absurd hcs h
    | cons a l => rfl
  show (if app.chat_states.isEmpty then some ⟨app, [], true⟩
    else navigate app (jIdx app)) = _
  rw [hne]
  simp only [Bool.false_eq_true, if_false, navigate, hget]

/-- Witness for `down_always_submits_job` with one conversation already
selected: the press re-selects index 0 and still submits a job. -/
theorem down_always_submits_job_w :
    step ⟨false, [ChatState.new alice], some 0⟩ jKey =
      some ⟨⟨false, [ChatState.new alice], some 0⟩, [.LoadMessages 1],
        false⟩ :=
  down_always_submits_job ⟨false, [ChatState.new alice], some 0⟩ (by decide)

/-- C7: with the selection at index 0 and a nonempty conversation list,
the `k` (up) handler computes `0 - 1` on usize before clamping: the
wrapped index is `2^64 - 1`, not `0`, and indexing `chat_states` there
is out of bounds, so the handler panics (in debug mode the subtraction
itself panics) instead of keeping the selection at index 0. -/
theorem up_at_top_underflow (app : App) (h0 : app.dialog_idx = some 0)
    (h1 : app.chat_states ≠ []) (h2 : app.chat_states.length < USIZE_SIZE) :
    kIdx app = USIZE_SIZE - 1 ∧ kIdx app ≠ 0 ∧ step app kKey = none := by
  have hk : kIdx app = USIZE_SIZE - 1 := by
    simp only [kIdx, h0, Option.map_some, Option.getD_some, usizeSub]
    norm_num [USIZE_SIZE]
  refine ⟨hk, by rw [hk]; norm_num [USIZE_SIZE], ?_⟩
  have hne : app.chat_states.isEmpty = false := by
    cases hcs : app.chat_states with
    | nil => exact absurd hcs h1
    | cons a l => rfl
  have hnone : app.chat_states[kIdx app]? = none := by
    rw [hk]
    apply List.getElem?_eq_none
    omega
  show (if app.chat_states.isEmpty then some ⟨app, [], true⟩
    else navigate app (kIdx app)) = none
  rw [hne]
  simp only [Bool.false_eq_true, if_false, navigate, hnone]

/-- Witness for `up_at_top_underflow` at a one-conversation state with
index 0 selected. -/
theorem up_at_top_underflow_w :
    kIdx ⟨false, [ChatState.new alice], some 0⟩ = USIZE_SIZE - 1 ∧
    kIdx ⟨false, [ChatState.new alice], some 0⟩ ≠ 0 ∧
    step ⟨false, [ChatState.new alice], some 0⟩ kKey = none :=
  up_at_top_underflow ⟨false, [ChatState.new alice], some 0⟩ rfl (by decide)
    (by norm_num [USIZE_SIZE])

/-- C6 (amended): the loop hands the state to the renderer after every
successfully handled event, whatever its kind: the handler `continue`s —
skipping the draw at src/main.rs line 276 — exactly when a `j`/`k` press
arrives while the conversation list is empty; in every other case,
including every non-`Render` event, the draw is reached. -/
theorem draw_after_every_event (app : App) (e : Event) (r : StepResult)
    (h : step app e = some r) : r.continued = navKeyOnEmpty app e := by
  obtain ⟨rapp, rjobs, rc⟩ := r
  cases e with
  | api ae => cases ae <;> simp_all [step, navKeyOnEmpty]
  | screen se =>
    cases se <;> try (simp_all [step, navKeyOnEmpty]; done)
    rename_i ke
    simp only [step] at h
    split_ifs at h with h1 h2 h3 h4 h5
    · rcases h1 with ⟨hm, hc⟩ | ⟨hm, hc⟩ <;> simp_all [navKeyOnEmpty]
    · simp_all [navKeyOnEmpty]
    · obtain ⟨hm, hc⟩ := h2
      simp only [navigate] at h
      split at h
      · simp at h
      · simp_all [navKeyOnEmpty]
    · simp_all [navKeyOnEmpty]
    · obtain ⟨hm, hc⟩ := h4
      simp only [navigate] at h
      split at h
      · simp at h
      · simp_all [navKeyOnEmpty]
    · simp_all [navKeyOnEmpty]

/-- Witness for `draw_after_every_event` on a `Tick` event: the handler
does not `continue`, so the draw is reached despite the event not being
a render tick. -/
theorem draw_after_every_event_w :
    (⟨App.new, [], false⟩ : StepResult).continued =
      navKeyOnEmpty App.new (.screen .Tick) :=
  draw_after_every_event App.new (.screen .Tick) ⟨App.new, [], false⟩ rfl
